import Mathlib

/-!
Shallow embedding of the integrator core of `src/simulation.ts`
(Three-Body-Simulation-RKF45-Accurate).

Numbers are modelled as real numbers (`ℝ`); JavaScript's `Math.pow x 1.5`
becomes `Real.rpow x 1.5` and `Vec2.mag`'s square root becomes `Real.sqrt`.
State vectors (`number[]` / `Float64Array`) become `List ℝ`; JavaScript's
out-of-range index read is modelled by `List.getD _ _ 0` (every read the
program performs is in bounds, see the length lemmas below).
`Body.id` and `Body.color` are presentation-only fields never read or
written by the integrator and are omitted from the record.
-/

namespace ThreeBody

/-- Vec2 from simulation.ts lines 2-8: a 2-d vector of numbers. -/
structure Vec2 where
  x : ℝ
  y : ℝ

instance : Inhabited Vec2 := ⟨⟨0, 0⟩⟩

def Vec2.add (a b : Vec2) : Vec2 := ⟨a.x + b.x, a.y + b.y⟩

def Vec2.sub (a b : Vec2) : Vec2 := ⟨a.x - b.x, a.y - b.y⟩

def Vec2.scale (a : Vec2) (s : ℝ) : Vec2 := ⟨a.x * s, a.y * s⟩

/-- Magnitude, simulation.ts line 7: `Math.sqrt(x*x + y*y)`. -/
noncomputable def Vec2.mag (a : Vec2) : ℝ := Real.sqrt (a.x * a.x + a.y * a.y)

/-- Gravitational constant, simulation.ts line 11. -/
def G : ℝ := 1

/-- Softening constant, simulation.ts line 12. -/
noncomputable def SOFTENING : ℝ := 0.1

/-- Body from simulation.ts lines 14-21, keeping the fields the integrator
reads or writes (mass, pos, vel, trail); id and color are presentation-only. -/
structure Body where
  mass : ℝ
  pos : Vec2
  vel : Vec2
  trail : List Vec2

instance : Inhabited Body := ⟨⟨1, default, default, []⟩⟩

/-- Simulation fields read or written by `integrate` plus the remaining
numeric configuration (lines 28-35): bodies, dt, scale, paused. -/
structure SimState where
  bodies : List Body
  dt : ℝ
  scale : ℝ
  paused : Bool

/-- Shorthand for the JavaScript numeric array read `state[i]`
(all reads the program performs are in bounds). -/
def lget (s : List ℝ) (i : ℕ) : ℝ := s.getD i 0

/-- Flattening loop of `integrate`, simulation.ts lines 203-204:
`bodies.forEach(b => state.push(b.pos.x, b.pos.y, b.vel.x, b.vel.y))`. -/
def flatten : List Body → List ℝ
  | [] => []
  | b :: bs => b.pos.x :: b.pos.y :: b.vel.x :: b.vel.y :: flatten bs

/-- Per-pair contribution of body `j` to body `i`'s acceleration,
simulation.ts lines 185-192: `dx`, `dy`, `distSq`, the softened factor
`f = (G * bodies[j].mass) / Math.pow(distSq + SOFTENING, 1.5)`, and the
accumulated pair `(f*dx, f*dy)`. -/
noncomputable def pairAcc (bodies : List Body) (state : List ℝ) (i j : ℕ) : ℝ × ℝ :=
  let dx := lget state (4 * j) - lget state (4 * i)
  let dy := lget state (4 * j + 1) - lget state (4 * i + 1)
  let distSq := dx * dx + dy * dy
  let f := G * (bodies.getD j default).mass / Real.rpow (distSq + SOFTENING) 1.5
  (f * dx, f * dy)

/-- Inner accumulation loop of `getDerivatives`, simulation.ts lines 179-193:
starting from `ax = 0, ay = 0`, for `j` in `0..numBodies-1` skipping `j = i`,
accumulate `ax += f*dx; ay += f*dy`. -/
noncomputable def accel (bodies : List Body) (state : List ℝ) (i : ℕ) : ℝ × ℝ :=
  (List.range bodies.length).foldl
    (fun acc j =>
      if i = j then acc
      else (acc.1 + (pairAcc bodies state i j).1, acc.2 + (pairAcc bodies state i j).2))
    (0, 0)

/-- Entry `idx` of the derivative vector built by `getDerivatives`,
simulation.ts lines 169-197: the `Float64Array` is zero-initialised with
`state.length` entries, and the loop over `i < numBodies` writes slots
`4i .. 4i+3` with `(vx, vy, ax, ay)`; slots beyond `4*numBodies` stay `0`. -/
noncomputable def derivEntry (bodies : List Body) (state : List ℝ) (idx : ℕ) : ℝ :=
  if idx / 4 < bodies.length then
    if idx % 4 = 0 then lget state (4 * (idx / 4) + 2)
    else if idx % 4 = 1 then lget state (4 * (idx / 4) + 3)
    else if idx % 4 = 2 then (accel bodies state (idx / 4)).1
    else (accel bodies state (idx / 4)).2
  else 0

/-- getDerivatives, simulation.ts lines 169-198: returns a vector of
`state.length` entries (`Array.from` of the filled `Float64Array`). -/
noncomputable def getDerivatives (bodies : List Body) (state : List ℝ) : List ℝ :=
  (List.range state.length).map (derivEntry bodies state)

/-- Intermediate-state maps of `integrate`, simulation.ts lines 207-211:
`state.map((v, i) => v + k[i] * c)` with `c = dt * 0.5` or `c = dt`
(the source writes `k1[i] * dt * 0.5`, associated here as `k[i] * (dt * 0.5)`). -/
noncomputable def stepState (s k : List ℝ) (c : ℝ) : List ℝ :=
  (List.range s.length).map (fun i => lget s i + lget k i * c)

/-- First derivative evaluation of `integrate`, simulation.ts line 206. -/
noncomputable def K1 (bodies : List Body) : List ℝ :=
  getDerivatives bodies (flatten bodies)

/-- Second stage state, simulation.ts line 207:
`state.map((v, i) => v + k1[i] * dt * 0.5)`. -/
noncomputable def SK2 (bodies : List Body) (dt : ℝ) : List ℝ :=
  stepState (flatten bodies) (K1 bodies) (dt * 0.5)

/-- Second derivative evaluation, simulation.ts line 208. -/
noncomputable def K2 (bodies : List Body) (dt : ℝ) : List ℝ :=
  getDerivatives bodies (SK2 bodies dt)

/-- Third stage state, simulation.ts line 209. -/
noncomputable def SK3 (bodies : List Body) (dt : ℝ) : List ℝ :=
  stepState (flatten bodies) (K2 bodies dt) (dt * 0.5)

/-- Third derivative evaluation, simulation.ts line 210. -/
noncomputable def K3 (bodies : List Body) (dt : ℝ) : List ℝ :=
  getDerivatives bodies (SK3 bodies dt)

/-- Fourth stage state, simulation.ts line 211: `state.map((v, i) => v + k3[i] * dt)`. -/
noncomputable def SK4 (bodies : List Body) (dt : ℝ) : List ℝ :=
  stepState (flatten bodies) (K3 bodies dt) dt

/-- Fourth derivative evaluation, simulation.ts line 212. -/
noncomputable def K4 (bodies : List Body) (dt : ℝ) : List ℝ :=
  getDerivatives bodies (SK4 bodies dt)

/-- RK4 combination of `integrate`, simulation.ts lines 214-216: the final
in-place update `state[i] += (dt / 6.0) * (k1[i] + 2*k2[i] + 2*k3[i] + k4[i])`. -/
noncomputable def rk4Final (bodies : List Body) (dt : ℝ) : List ℝ :=
  (List.range (flatten bodies).length).map (fun i =>
    lget (flatten bodies) i +
      dt / 6 * (lget (K1 bodies) i + 2 * lget (K2 bodies dt) i +
        2 * lget (K3 bodies dt) i + lget (K4 bodies dt) i))

/-- Trail-append condition, simulation.ts lines 226-227:
`b.trail.length === 0 || b.pos.sub(b.trail[b.trail.length-1]).mag() > 0.05`
(evaluated at the body's already-updated position). -/
def shouldAppend (pos : Vec2) (trail : List Vec2) : Prop :=
  trail.length = 0 ∨ 0.05 < (pos.sub (trail.getD (trail.length - 1) default)).mag

noncomputable instance (pos : Vec2) (trail : List Vec2) : Decidable (shouldAppend pos trail) := by
  unfold shouldAppend
  infer_instance

/-- Trail bookkeeping of `integrate`, simulation.ts lines 226-230: push the
new position when the append condition holds, then `shift()` (drop the
oldest point) when the length exceeds 150. -/
noncomputable def updateTrail (pos : Vec2) (trail : List Vec2) : List Vec2 :=
  if shouldAppend pos trail then
    let t := trail ++ [pos]
    if 150 < t.length then t.tail else t
  else trail

/-- Write-back loop of `integrate`, simulation.ts lines 218-232:
`bodies.forEach((b, i) => ...)` sets body `i`'s position and velocity from
slots `4i .. 4i+3` of the combined state and, unless paused, updates its
trail at the new position. The counter argument is the `forEach` index. -/
noncomputable def writeBack (paused : Bool) (state : List ℝ) : ℕ → List Body → List Body
  | _, [] => []
  | i, b :: bs =>
    let pos : Vec2 := ⟨lget state (4 * i), lget state (4 * i + 1)⟩
    let vel : Vec2 := ⟨lget state (4 * i + 2), lget state (4 * i + 3)⟩
    { b with
      pos := pos
      vel := vel
      trail := if paused then b.trail else updateTrail pos b.trail } ::
      writeBack paused state (i + 1) bs

/-- Unflatten: the position/velocity part of the write-back loop,
simulation.ts lines 218-223 (the StateVector packing contract of spec 4.1,
without the trail bookkeeping). The counter argument is the loop index. -/
def unflattenFrom (state : List ℝ) : ℕ → List Body → List Body
  | _, [] => []
  | i, b :: bs =>
    { b with
      pos := ⟨lget state (4 * i), lget state (4 * i + 1)⟩
      vel := ⟨lget state (4 * i + 2), lget state (4 * i + 3)⟩ } ::
      unflattenFrom state (i + 1) bs

def unflatten (state : List ℝ) (bodies : List Body) : List Body :=
  unflattenFrom state 0 bodies

/-- integrate, simulation.ts lines 200-233: early return on zero bodies,
otherwise flatten, RK4-combine and write back. -/
noncomputable def integrate (sim : SimState) (dt : ℝ) : SimState :=
  if sim.bodies.length = 0 then sim
  else { sim with bodies := writeBack sim.paused (rk4Final sim.bodies dt) 0 sim.bodies }

/-- Repeated invocation of the stepper (the per-frame loop calls
`integrate(this.dt)` a fixed number of times, simulation.ts line 300). -/
noncomputable def stepN (sim : SimState) (dt : ℝ) : ℕ → SimState
  | 0 => sim
  | n + 1 => integrate (stepN sim dt n) dt

/-- Total linear momentum of a body list: the sum over bodies of
`mass * velocity` (componentwise). -/
def momentum (bodies : List Body) : ℝ × ℝ :=
  ((bodies.map (fun b => b.mass * b.vel.x)).sum,
   (bodies.map (fun b => b.mass * b.vel.y)).sum)

/-! Basic facts about list reads and the embedded loops. -/

theorem lget_of_lt (s : List ℝ) (i : ℕ) (h : i < s.length) : lget s i = s[i] := by
  simp [lget, List.getD_eq_getElem?_getD, List.getElem?_eq_getElem h]

theorem lget_of_ge (s : List ℝ) (i : ℕ) (h : s.length ≤ i) : lget s i = 0 := by
  simp [lget, List.getD_eq_getElem?_getD, List.getElem?_eq_none h]

theorem lget_range_map (f : ℕ → ℝ) (n i : ℕ) (h : i < n) :
    lget ((List.range n).map f) i = f i := by
  rw [lget_of_lt _ _ (by simpa using h)]
  simp

theorem length_flatten (bodies : List Body) : (flatten bodies).length = 4 * bodies.length := by
  induction bodies with
  | nil => simp [flatten]
  | cons b bs ih => simp [flatten, ih]; ring

theorem lget_cons4 (a b c d : ℝ) (l : List ℝ) (m : ℕ) :
    lget (a :: b :: c :: d :: l) (m + 4) = lget l m := by
  simp [lget, List.getD_cons_succ, show m + 4 = m + 1 + 1 + 1 + 1 from by ring]

theorem flatten_lget (bodies : List Body) :
    ∀ i, i < bodies.length →
      lget (flatten bodies) (4 * i) = (bodies.getD i default).pos.x ∧
      lget (flatten bodies) (4 * i + 1) = (bodies.getD i default).pos.y ∧
      lget (flatten bodies) (4 * i + 2) = (bodies.getD i default).vel.x ∧
      lget (flatten bodies) (4 * i + 3) = (bodies.getD i default).vel.y := by
  induction bodies with
  | nil => intro i hi; simp at hi
  | cons b bs ih =>
    intro i hi
    cases i with
    | zero => simp [flatten, lget]
    | succ i =>
      have hi' : i < bs.length := by simpa using hi
      obtain ⟨e0, e1, e2, e3⟩ := ih i hi'
      have h0 : 4 * (i + 1) = 4 * i + 4 := by ring
      have h1 : 4 * i + 4 + 1 = 4 * i + 1 + 4 := by ring
      have h2 : 4 * i + 4 + 2 = 4 * i + 2 + 4 := by ring
      have h3 : 4 * i + 4 + 3 = 4 * i + 3 + 4 := by ring
      rw [flatten, h0, h1, h2, h3, lget_cons4, lget_cons4, lget_cons4, lget_cons4]
      simp only [List.getD_cons_succ]
      exact ⟨e0, e1, e2, e3⟩

theorem foldl_skip_pair_sum (g : ℕ → ℝ × ℝ) (i : ℕ) :
    ∀ (n : ℕ) (acc : ℝ × ℝ),
      List.foldl
        (fun acc j => if i = j then acc else (acc.1 + (g j).1, acc.2 + (g j).2))
        acc (List.range n)
        = (acc.1 + ∑ j ∈ (Finset.range n).filter (fun j => j ≠ i), (g j).1,
           acc.2 + ∑ j ∈ (Finset.range n).filter (fun j => j ≠ i), (g j).2) := by
  intro n
  induction n with
  | zero => intro acc; simp
  | succ n ih =>
    intro acc
    rw [List.range_succ, List.foldl_append, ih, List.foldl_cons, List.foldl_nil,
      Finset.range_succ, Finset.filter_insert]
    by_cases h : i = n
    · subst h
      rw [if_pos rfl, if_neg (by simp)]
    · rw [if_neg h, if_pos (fun hn => h hn.symm)]
      have hnotin : n ∉ (Finset.range n).filter (fun j => j ≠ i) := by simp
      rw [Finset.sum_insert hnotin, Finset.sum_insert hnotin]
      exact Prod.ext (by ring) (by ring)

theorem accel_eq_sum (bodies : List Body) (state : List ℝ) (i : ℕ) :
    accel bodies state i =
      (∑ j ∈ (Finset.range bodies.length).filter (fun j => j ≠ i),
        (pairAcc bodies state i j).1,
       ∑ j ∈ (Finset.range bodies.length).filter (fun j => j ≠ i),
        (pairAcc bodies state i j).2) := by
  unfold accel
  rw [foldl_skip_pair_sum]
  simp

theorem length_getDerivatives (bodies : List Body) (state : List ℝ) :
    (getDerivatives bodies state).length = state.length := by
  simp [getDerivatives]

theorem lget_getDerivatives_vx (bodies : List Body) (state : List ℝ) (i : ℕ)
    (hi : i < bodies.length) (hlen : 4 * i < state.length) :
    lget (getDerivatives bodies state) (4 * i) = lget state (4 * i + 2) := by
  unfold getDerivatives
  rw [lget_range_map _ _ _ hlen]
  have h1 : 4 * i / 4 = i := by omega
  have h2 : 4 * i % 4 = 0 := by omega
  simp [derivEntry, h1, h2, hi]

theorem lget_getDerivatives_vy (bodies : List Body) (state : List ℝ) (i : ℕ)
    (hi : i < bodies.length) (hlen : 4 * i + 1 < state.length) :
    lget (getDerivatives bodies state) (4 * i + 1) = lget state (4 * i + 3) := by
  unfold getDerivatives
  rw [lget_range_map _ _ _ hlen]
  have h1 : (4 * i + 1) / 4 = i := by omega
  have h2 : (4 * i + 1) % 4 = 1 := by omega
  simp [derivEntry, h1, h2, hi]

theorem lget_getDerivatives_ax (bodies : List Body) (state : List ℝ) (i : ℕ)
    (hi : i < bodies.length) (hlen : 4 * i + 2 < state.length) :
    lget (getDerivatives bodies state) (4 * i + 2) = (accel bodies state i).1 := by
  unfold getDerivatives
  rw [lget_range_map _ _ _ hlen]
  have h1 : (4 * i + 2) / 4 = i := by omega
  have h2 : (4 * i + 2) % 4 = 2 := by omega
  simp [derivEntry, h1, h2, hi]

theorem lget_getDerivatives_ay (bodies : List Body) (state : List ℝ) (i : ℕ)
    (hi : i < bodies.length) (hlen : 4 * i + 3 < state.length) :
    lget (getDerivatives bodies state) (4 * i + 3) = (accel bodies state i).2 := by
  unfold getDerivatives
  rw [lget_range_map _ _ _ hlen]
  have h1 : (4 * i + 3) / 4 = i := by omega
  have h2 : (4 * i + 3) % 4 = 3 := by omega
  simp [derivEntry, h1, h2, hi]

theorem length_stepState (s k : List ℝ) (c : ℝ) : (stepState s k c).length = s.length := by
  simp [stepState]

theorem lget_stepState (s k : List ℝ) (c : ℝ) (i : ℕ) (h : i < s.length) :
    lget (stepState s k c) i = lget s i + lget k i * c := by
  unfold stepState
  rw [lget_range_map _ _ _ h]

theorem length_K1 (bodies : List Body) : (K1 bodies).length = 4 * bodies.length := by
  simp [K1, length_getDerivatives, length_flatten]

theorem length_SK2 (bodies : List Body) (dt : ℝ) :
    (SK2 bodies dt).length = 4 * bodies.length := by
  simp [SK2, length_stepState, length_flatten]

theorem length_K2 (bodies : List Body) (dt : ℝ) :
    (K2 bodies dt).length = 4 * bodies.length := by
  simp [K2, length_getDerivatives, length_SK2]

theorem length_SK3 (bodies : List Body) (dt : ℝ) :
    (SK3 bodies dt).length = 4 * bodies.length := by
  simp [SK3, length_stepState, length_flatten]

theorem length_K3 (bodies : List Body) (dt : ℝ) :
    (K3 bodies dt).length = 4 * bodies.length := by
  simp [K3, length_getDerivatives, length_SK3]

theorem length_SK4 (bodies : List Body) (dt : ℝ) :
    (SK4 bodies dt).length = 4 * bodies.length := by
  simp [SK4, length_stepState, length_flatten]

theorem length_K4 (bodies : List Body) (dt : ℝ) :
    (K4 bodies dt).length = 4 * bodies.length := by
  simp [K4, length_getDerivatives, length_SK4]

theorem length_rk4Final (bodies : List Body) (dt : ℝ) :
    (rk4Final bodies dt).length = 4 * bodies.length := by
  simp [rk4Final, length_flatten]

theorem lget_rk4Final (bodies : List Body) (dt : ℝ) (i : ℕ)
    (h : i < 4 * bodies.length) :
    lget (rk4Final bodies dt) i =
      lget (flatten bodies) i +
        dt / 6 * (lget (K1 bodies) i + 2 * lget (K2 bodies dt) i +
          2 * lget (K3 bodies dt) i + lget (K4 bodies dt) i) := by
  unfold rk4Final
  rw [lget_range_map _ _ _ (by rw [length_flatten]; exact h)]

theorem length_writeBack (p : Bool) (s : List ℝ) (bs : List Body) :
    ∀ i, (writeBack p s i bs).length = bs.length := by
  induction bs with
  | nil => intro i; rfl
  | cons b bs ih => intro i; simp [writeBack, ih]

theorem writeBack_getD (p : Bool) (s : List ℝ) (bs : List Body) :
    ∀ i k, k < bs.length →
      (writeBack p s i bs).getD k default =
        { bs.getD k default with
          pos := ⟨lget s (4 * (i + k)), lget s (4 * (i + k) + 1)⟩
          vel := ⟨lget s (4 * (i + k) + 2), lget s (4 * (i + k) + 3)⟩
          trail := if p then (bs.getD k default).trail
            else updateTrail ⟨lget s (4 * (i + k)), lget s (4 * (i + k) + 1)⟩
              (bs.getD k default).trail } := by
  induction bs with
  | nil => intro i k hk; simp at hk
  | cons b bs ih =>
    intro i k hk
    cases k with
    | zero => simp [writeBack]
    | succ k =>
      have hk' : k < bs.length := by simpa using hk
      have h := ih (i + 1) k hk'
      have e : i + 1 + k = i + (k + 1) := by ring
      rw [e] at h
      simpa [writeBack, List.getD_cons_succ] using h

theorem length_unflattenFrom (s : List ℝ) (bs : List Body) :
    ∀ i, (unflattenFrom s i bs).length = bs.length := by
  induction bs with
  | nil => intro i; rfl
  | cons b bs ih => intro i; simp [unflattenFrom, ih]

theorem unflattenFrom_getD (s : List ℝ) (bs : List Body) :
    ∀ i k, k < bs.length →
      (unflattenFrom s i bs).getD k default =
        { bs.getD k default with
          pos := ⟨lget s (4 * (i + k)), lget s (4 * (i + k) + 1)⟩
          vel := ⟨lget s (4 * (i + k) + 2), lget s (4 * (i + k) + 3)⟩ } := by
  induction bs with
  | nil => intro i k hk; simp at hk
  | cons b bs ih =>
    intro i k hk
    cases k with
    | zero => simp [unflattenFrom]
    | succ k =>
      have hk' : k < bs.length := by simpa using hk
      have h := ih (i + 1) k hk'
      have e : i + 1 + k = i + (k + 1) := by ring
      rw [e] at h
      simpa [unflattenFrom, List.getD_cons_succ] using h

theorem integrate_paused (sim : SimState) (dt : ℝ) :
    (integrate sim dt).paused = sim.paused := by
  unfold integrate; split <;> rfl

theorem integrate_dt (sim : SimState) (dt : ℝ) : (integrate sim dt).dt = sim.dt := by
  unfold integrate; split <;> rfl

theorem integrate_scale (sim : SimState) (dt : ℝ) :
    (integrate sim dt).scale = sim.scale := by
  unfold integrate; split <;> rfl

theorem integrate_bodies_of_ne (sim : SimState) (dt : ℝ) (h : sim.bodies.length ≠ 0) :
    (integrate sim dt).bodies = writeBack sim.paused (rk4Final sim.bodies dt) 0 sim.bodies := by
  unfold integrate
  rw [if_neg h]

theorem length_integrate_bodies (sim : SimState) (dt : ℝ) :
    (integrate sim dt).bodies.length = sim.bodies.length := by
  unfold integrate
  split
  · rfl
  · simp [length_writeBack]

/-! Claim theorems. -/

/-- C4: for every dt, calling the stepper with an empty body list is a no-op:
it returns without error and mutates nothing (no body state, no trails, no
simulation fields). -/
theorem integrate_empty_noop (sim : SimState) (dt : ℝ) (h : sim.bodies = []) :
    integrate sim dt = sim := by
  unfold integrate
  rw [if_pos (by simp [h])]

theorem integrate_empty_noop_witness :
    integrate ⟨[], 0.015, 150, false⟩ 0.015 = ⟨[], 0.015, 150, false⟩ :=
  integrate_empty_noop ⟨[], 0.015, 150, false⟩ 0.015 rfl

/-- C3: flattening followed by unflattening is lossless and order-preserving:
every body's position and velocity are reproduced exactly, and the flattened
vector's length is always 4 times the body count. -/
theorem flatten_unflatten_roundtrip (bodies bodies2 : List Body)
    (h : bodies2.length = bodies.length) :
    (flatten bodies).length = 4 * bodies.length ∧
    (unflatten (flatten bodies) bodies2).length = bodies2.length ∧
    ∀ i, i < bodies.length →
      ((unflatten (flatten bodies) bodies2).getD i default).pos =
        (bodies.getD i default).pos ∧
      ((unflatten (flatten bodies) bodies2).getD i default).vel =
        (bodies.getD i default).vel := by
  refine ⟨length_flatten bodies, length_unflattenFrom _ _ 0, ?_⟩
  intro i hi
  have hgd := unflattenFrom_getD (flatten bodies) bodies2 0 i (by rw [h]; exact hi)
  simp only [Nat.zero_add] at hgd
  obtain ⟨f0, f1, f2, f3⟩ := flatten_lget bodies i hi
  rw [unflatten, hgd]
  constructor
  · show Vec2.mk (lget (flatten bodies) (4 * i)) (lget (flatten bodies) (4 * i + 1)) = _
    rw [f0, f1]
  · show Vec2.mk (lget (flatten bodies) (4 * i + 2)) (lget (flatten bodies) (4 * i + 3)) = _
    rw [f2, f3]

theorem flatten_unflatten_roundtrip_witness :
    ([(⟨2, ⟨5, 6⟩, ⟨7, 8⟩, []⟩ : Body)].length = [(⟨1, ⟨1, 2⟩, ⟨3, 4⟩, []⟩ : Body)].length) ∧
    ((flatten [(⟨1, ⟨1, 2⟩, ⟨3, 4⟩, []⟩ : Body)]).length = 4 * 1 ∧
     (unflatten (flatten [(⟨1, ⟨1, 2⟩, ⟨3, 4⟩, []⟩ : Body)])
        [(⟨2, ⟨5, 6⟩, ⟨7, 8⟩, []⟩ : Body)]).length = 1 ∧
     ∀ i, i < 1 →
      ((unflatten (flatten [(⟨1, ⟨1, 2⟩, ⟨3, 4⟩, []⟩ : Body)])
          [(⟨2, ⟨5, 6⟩, ⟨7, 8⟩, []⟩ : Body)]).getD i default).pos =
        ([(⟨1, ⟨1, 2⟩, ⟨3, 4⟩, []⟩ : Body)].getD i default).pos ∧
      ((unflatten (flatten [(⟨1, ⟨1, 2⟩, ⟨3, 4⟩, []⟩ : Body)])
          [(⟨2, ⟨5, 6⟩, ⟨7, 8⟩, []⟩ : Body)]).getD i default).vel =
        ([(⟨1, ⟨1, 2⟩, ⟨3, 4⟩, []⟩ : Body)].getD i default).vel) :=
  ⟨rfl, flatten_unflatten_roundtrip [⟨1, ⟨1, 2⟩, ⟨3, 4⟩, []⟩] [⟨2, ⟨5, 6⟩, ⟨7, 8⟩, []⟩] rfl⟩

/-- C2: the derivative vector has the same length and layout as the state:
component 4i is state[4i+2], component 4i+1 is state[4i+3], and components
4i+2 and 4i+3 are the sums over all j ≠ i of f*dx and f*dy, with
f = G * mass_j / (distSq + SOFTENING)^1.5, G = 1 and SOFTENING = 0.1. -/
theorem getDerivatives_spec (bodies : List Body) (state : List ℝ)
    (hlen : state.length = 4 * bodies.length) (i : ℕ) (hi : i < bodies.length) :
    (getDerivatives bodies state).length = state.length ∧
    lget (getDerivatives bodies state) (4 * i) = lget state (4 * i + 2) ∧
    lget (getDerivatives bodies state) (4 * i + 1) = lget state (4 * i + 3) ∧
    lget (getDerivatives bodies state) (4 * i + 2) =
      (∑ j ∈ (Finset.range bodies.length).filter (fun j => j ≠ i),
        G * (bodies.getD j default).mass /
            Real.rpow
              ((lget state (4 * j) - lget state (4 * i)) *
                  (lget state (4 * j) - lget state (4 * i)) +
                (lget state (4 * j + 1) - lget state (4 * i + 1)) *
                  (lget state (4 * j + 1) - lget state (4 * i + 1)) +
                SOFTENING) 1.5 *
          (lget state (4 * j) - lget state (4 * i))) ∧
    lget (getDerivatives bodies state) (4 * i + 3) =
      (∑ j ∈ (Finset.range bodies.length).filter (fun j => j ≠ i),
        G * (bodies.getD j default).mass /
            Real.rpow
              ((lget state (4 * j) - lget state (4 * i)) *
                  (lget state (4 * j) - lget state (4 * i)) +
                (lget state (4 * j + 1) - lget state (4 * i + 1)) *
                  (lget state (4 * j + 1) - lget state (4 * i + 1)) +
                SOFTENING) 1.5 *
          (lget state (4 * j + 1) - lget state (4 * i + 1))) := by
  refine ⟨length_getDerivatives bodies state,
    lget_getDerivatives_vx bodies state i hi (by omega),
    lget_getDerivatives_vy bodies state i hi (by omega), ?_, ?_⟩
  · rw [lget_getDerivatives_ax bodies state i hi (by omega), accel_eq_sum]
    rfl
  · rw [lget_getDerivatives_ay bodies state i hi (by omega), accel_eq_sum]
    rfl

theorem getDerivatives_spec_witness :
    (([10, 20, 30, 40, 50, 60, 70, 80] : List ℝ).length =
        4 * [(⟨1, ⟨1, 2⟩, ⟨3, 4⟩, []⟩ : Body), ⟨2, ⟨5, 6⟩, ⟨7, 8⟩, []⟩].length) ∧
    (0 < [(⟨1, ⟨1, 2⟩, ⟨3, 4⟩, []⟩ : Body), ⟨2, ⟨5, 6⟩, ⟨7, 8⟩, []⟩].length) ∧
    ((getDerivatives [(⟨1, ⟨1, 2⟩, ⟨3, 4⟩, []⟩ : Body), ⟨2, ⟨5, 6⟩, ⟨7, 8⟩, []⟩]
        [10, 20, 30, 40, 50, 60, 70, 80]).length =
      ([10, 20, 30, 40, 50, 60, 70, 80] : List ℝ).length ∧
     lget (getDerivatives [(⟨1, ⟨1, 2⟩, ⟨3, 4⟩, []⟩ : Body), ⟨2, ⟨5, 6⟩, ⟨7, 8⟩, []⟩]
        [10, 20, 30, 40, 50, 60, 70, 80]) (4 * 0) =
      lget ([10, 20, 30, 40, 50, 60, 70, 80] : List ℝ) (4 * 0 + 2) ∧
     lget (getDerivatives [(⟨1, ⟨1, 2⟩, ⟨3, 4⟩, []⟩ : Body), ⟨2, ⟨5, 6⟩, ⟨7, 8⟩, []⟩]
        [10, 20, 30, 40, 50, 60, 70, 80]) (4 * 0 + 1) =
      lget ([10, 20, 30, 40, 50, 60, 70, 80] : List ℝ) (4 * 0 + 3) ∧
     lget (getDerivatives [(⟨1, ⟨1, 2⟩, ⟨3, 4⟩, []⟩ : Body), ⟨2, ⟨5, 6⟩, ⟨7, 8⟩, []⟩]
        [10, 20, 30, 40, 50, 60, 70, 80]) (4 * 0 + 2) =
      (∑ j ∈ (Finset.range
            [(⟨1, ⟨1, 2⟩, ⟨3, 4⟩, []⟩ : Body), ⟨2, ⟨5, 6⟩, ⟨7, 8⟩, []⟩].length).filter
            (fun j => j ≠ 0),
        G * ([(⟨1, ⟨1, 2⟩, ⟨3, 4⟩, []⟩ : Body), ⟨2, ⟨5, 6⟩, ⟨7, 8⟩, []⟩].getD j default).mass /
            Real.rpow
              ((lget ([10, 20, 30, 40, 50, 60, 70, 80] : List ℝ) (4 * j) -
                    lget ([10, 20, 30, 40, 50, 60, 70, 80] : List ℝ) (4 * 0)) *
                  (lget ([10, 20, 30, 40, 50, 60, 70, 80] : List ℝ) (4 * j) -
                    lget ([10, 20, 30, 40, 50, 60, 70, 80] : List ℝ) (4 * 0)) +
                (lget ([10, 20, 30, 40, 50, 60, 70, 80] : List ℝ) (4 * j + 1) -
                    lget ([10, 20, 30, 40, 50, 60, 70, 80] : List ℝ) (4 * 0 + 1)) *
                  (lget ([10, 20, 30, 40, 50, 60, 70, 80] : List ℝ) (4 * j + 1) -
                    lget ([10, 20, 30, 40, 50, 60, 70, 80] : List ℝ) (4 * 0 + 1)) +
                SOFTENING) 1.5 *
          (lget ([10, 20, 30, 40, 50, 60, 70, 80] : List ℝ) (4 * j) -
            lget ([10, 20, 30, 40, 50, 60, 70, 80] : List ℝ) (4 * 0))) ∧
     lget (getDerivatives [(⟨1, ⟨1, 2⟩, ⟨3, 4⟩, []⟩ : Body), ⟨2, ⟨5, 6⟩, ⟨7, 8⟩, []⟩]
        [10, 20, 30, 40, 50, 60, 70, 80]) (4 * 0 + 3) =
      (∑ j ∈ (Finset.range
            [(⟨1, ⟨1, 2⟩, ⟨3, 4⟩, []⟩ : Body), ⟨2, ⟨5, 6⟩, ⟨7, 8⟩, []⟩].length).filter
            (fun j => j ≠ 0),
        G * ([(⟨1, ⟨1, 2⟩, ⟨3, 4⟩, []⟩ : Body), ⟨2, ⟨5, 6⟩, ⟨7, 8⟩, []⟩].getD j default).mass /
            Real.rpow
              ((lget ([10, 20, 30, 40, 50, 60, 70, 80] : List ℝ) (4 * j) -
                    lget ([10, 20, 30, 40, 50, 60, 70, 80] : List ℝ) (4 * 0)) *
                  (lget ([10, 20, 30, 40, 50, 60, 70, 80] : List ℝ) (4 * j) -
                    lget ([10, 20, 30, 40, 50, 60, 70, 80] : List ℝ) (4 * 0)) +
                (lget ([10, 20, 30, 40, 50, 60, 70, 80] : List ℝ) (4 * j + 1) -
                    lget ([10, 20, 30, 40, 50, 60, 70, 80] : List ℝ) (4 * 0 + 1)) *
                  (lget ([10, 20, 30, 40, 50, 60, 70, 80] : List ℝ) (4 * j + 1) -
                    lget ([10, 20, 30, 40, 50, 60, 70, 80] : List ℝ) (4 * 0 + 1)) +
                SOFTENING) 1.5 *
          (lget ([10, 20, 30, 40, 50, 60, 70, 80] : List ℝ) (4 * j + 1) -
            lget ([10, 20, 30, 40, 50, 60, 70, 80] : List ℝ) (4 * 0 + 1)))) :=
  ⟨rfl, by decide,
    getDerivatives_spec [⟨1, ⟨1, 2⟩, ⟨3, 4⟩, []⟩, ⟨2, ⟨5, 6⟩, ⟨7, 8⟩, []⟩]
      [10, 20, 30, 40, 50, 60, 70, 80] rfl 0 (by decide)⟩

/-- C7: two bodies at identical positions get acceleration (0,0), which is
finite and bounded in magnitude by the other mass / SOFTENING^1.5, and the
denominator base distSq + SOFTENING is never zero since SOFTENING = 0.1 > 0. -/
theorem softening_prevents_singularity (b0 b1 : Body) (hpos : b1.pos = b0.pos)
    (hm0 : 0 < b0.mass) (hm1 : 0 < b1.mass) :
    (accel [b0, b1] (flatten [b0, b1]) 0).1 = 0 ∧
    (accel [b0, b1] (flatten [b0, b1]) 0).2 = 0 ∧
    (accel [b0, b1] (flatten [b0, b1]) 1).1 = 0 ∧
    (accel [b0, b1] (flatten [b0, b1]) 1).2 = 0 ∧
    Vec2.mag ⟨(accel [b0, b1] (flatten [b0, b1]) 0).1,
      (accel [b0, b1] (flatten [b0, b1]) 0).2⟩ ≤ b1.mass / Real.rpow SOFTENING 1.5 ∧
    Vec2.mag ⟨(accel [b0, b1] (flatten [b0, b1]) 1).1,
      (accel [b0, b1] (flatten [b0, b1]) 1).2⟩ ≤ b0.mass / Real.rpow SOFTENING 1.5 ∧
    ∀ dx dy : ℝ, 0 < dx * dx + dy * dy + SOFTENING := by
  have hS : (0 : ℝ) < SOFTENING := by norm_num [SOFTENING]
  have hrp : (0 : ℝ) < Real.rpow SOFTENING 1.5 := Real.rpow_pos_of_pos hS 1.5
  have ha0 : accel [b0, b1] (flatten [b0, b1]) 0 = (0, 0) := by
    simp [accel, pairAcc, show List.range 2 = [0, 1] from rfl, flatten, lget, hpos]
  have ha1 : accel [b0, b1] (flatten [b0, b1]) 1 = (0, 0) := by
    simp [accel, pairAcc, show List.range 2 = [0, 1] from rfl, flatten, lget, hpos]
  have hmagzero : Vec2.mag ⟨(0 : ℝ), (0 : ℝ)⟩ = 0 := by
    simp [Vec2.mag]
  refine ⟨by rw [ha0], by rw [ha0], by rw [ha1], by rw [ha1], ?_, ?_, ?_⟩
  · rw [ha0]
    rw [hmagzero]
    exact div_nonneg hm1.le hrp.le
  · rw [ha1]
    rw [hmagzero]
    exact div_nonneg hm0.le hrp.le
  · intro dx dy
    nlinarith [mul_self_nonneg dx, mul_self_nonneg dy]

theorem softening_prevents_singularity_witness :
    ((⟨1, ⟨2, 3⟩, ⟨0, 0⟩, []⟩ : Body).pos = (⟨1, ⟨2, 3⟩, ⟨1, 1⟩, []⟩ : Body).pos) ∧
    (0 < (⟨1, ⟨2, 3⟩, ⟨1, 1⟩, []⟩ : Body).mass) ∧
    (accel [(⟨1, ⟨2, 3⟩, ⟨1, 1⟩, []⟩ : Body), ⟨1, ⟨2, 3⟩, ⟨0, 0⟩, []⟩]
      (flatten [(⟨1, ⟨2, 3⟩, ⟨1, 1⟩, []⟩ : Body), ⟨1, ⟨2, 3⟩, ⟨0, 0⟩, []⟩]) 0).1 = 0 :=
  ⟨rfl, one_pos,
    (softening_prevents_singularity ⟨1, ⟨2, 3⟩, ⟨1, 1⟩, []⟩ ⟨1, ⟨2, 3⟩, ⟨0, 0⟩, []⟩
      rfl one_pos one_pos).1⟩

/-- C6: for two bodies of equal mass placed symmetrically about the origin
with opposite velocities, the derivative evaluator produces equal-and-opposite
accelerations: body 0's acceleration components are the negation of body 1's. -/
theorem two_body_symmetry (b0 b1 : Body) (hm : b1.mass = b0.mass)
    (hpx : b1.pos.x = -b0.pos.x) (hpy : b1.pos.y = -b0.pos.y)
    (hvx : b1.vel.x = -b0.vel.x) (hvy : b1.vel.y = -b0.vel.y) :
    lget (getDerivatives [b0, b1] (flatten [b0, b1])) (4 * 0 + 2) =
      -lget (getDerivatives [b0, b1] (flatten [b0, b1])) (4 * 1 + 2) ∧
    lget (getDerivatives [b0, b1] (flatten [b0, b1])) (4 * 0 + 3) =
      -lget (getDerivatives [b0, b1] (flatten [b0, b1])) (4 * 1 + 3) := by
  have hlen : (flatten [b0, b1]).length = 8 := by rw [length_flatten]; rfl
  rw [lget_getDerivatives_ax [b0, b1] _ 0 (by norm_num) (by omega),
    lget_getDerivatives_ax [b0, b1] _ 1 (by norm_num) (by omega),
    lget_getDerivatives_ay [b0, b1] _ 0 (by norm_num) (by omega),
    lget_getDerivatives_ay [b0, b1] _ 1 (by norm_num) (by omega)]
  have e0 : accel [b0, b1] (flatten [b0, b1]) 0 = pairAcc [b0, b1] (flatten [b0, b1]) 0 1 := by
    simp [accel, show List.range 2 = [0, 1] from rfl]
  have e1 : accel [b0, b1] (flatten [b0, b1]) 1 = pairAcc [b0, b1] (flatten [b0, b1]) 1 0 := by
    simp [accel, show List.range 2 = [0, 1] from rfl]
  have l00 : lget (flatten [b0, b1]) (4 * 0) = b0.pos.x := rfl
  have l01 : lget (flatten [b0, b1]) (4 * 0 + 1) = b0.pos.y := rfl
  have l10 : lget (flatten [b0, b1]) (4 * 1) = b1.pos.x := rfl
  have l11 : lget (flatten [b0, b1]) (4 * 1 + 1) = b1.pos.y := rfl
  have m0 : ([b0, b1].getD 0 default).mass = b0.mass := rfl
  have m1 : ([b0, b1].getD 1 default).mass = b1.mass := rfl
  have hD : Real.rpow ((-b0.pos.x - b0.pos.x) * (-b0.pos.x - b0.pos.x) +
        (-b0.pos.y - b0.pos.y) * (-b0.pos.y - b0.pos.y) + SOFTENING) 1.5 =
      Real.rpow ((b0.pos.x - -b0.pos.x) * (b0.pos.x - -b0.pos.x) +
        (b0.pos.y - -b0.pos.y) * (b0.pos.y - -b0.pos.y) + SOFTENING) 1.5 := by
    congr 1
    ring
  rw [e0, e1]
  simp only [pairAcc, l00, l01, l10, l11, m0, m1, hm, hpx, hpy]
  rw [hD]
  exact ⟨by ring, by ring⟩

theorem two_body_symmetry_witness :
    ((⟨1, ⟨-2, -3⟩, ⟨-4, -5⟩, []⟩ : Body).mass = (⟨1, ⟨2, 3⟩, ⟨4, 5⟩, []⟩ : Body).mass) ∧
    ((⟨1, ⟨-2, -3⟩, ⟨-4, -5⟩, []⟩ : Body).pos.x = -(⟨1, ⟨2, 3⟩, ⟨4, 5⟩, []⟩ : Body).pos.x) ∧
    (lget (getDerivatives [(⟨1, ⟨2, 3⟩, ⟨4, 5⟩, []⟩ : Body), ⟨1, ⟨-2, -3⟩, ⟨-4, -5⟩, []⟩]
        (flatten [(⟨1, ⟨2, 3⟩, ⟨4, 5⟩, []⟩ : Body), ⟨1, ⟨-2, -3⟩, ⟨-4, -5⟩, []⟩])) (4 * 0 + 2) =
      -lget (getDerivatives [(⟨1, ⟨2, 3⟩, ⟨4, 5⟩, []⟩ : Body), ⟨1, ⟨-2, -3⟩, ⟨-4, -5⟩, []⟩]
        (flatten [(⟨1, ⟨2, 3⟩, ⟨4, 5⟩, []⟩ : Body), ⟨1, ⟨-2, -3⟩, ⟨-4, -5⟩, []⟩])) (4 * 1 + 2)) :=
  ⟨rfl, rfl,
    (two_body_symmetry ⟨1, ⟨2, 3⟩, ⟨4, 5⟩, []⟩ ⟨1, ⟨-2, -3⟩, ⟨-4, -5⟩, []⟩
      rfl rfl rfl rfl rfl).1⟩

theorem updateTrail_append (pos : Vec2) (trail : List Vec2) (h : shouldAppend pos trail) :
    updateTrail pos trail =
      if 150 < trail.length + 1 then (trail ++ [pos]).tail else trail ++ [pos] := by
  unfold updateTrail
  rw [if_pos h]
  simp

theorem updateTrail_not_append (pos : Vec2) (trail : List Vec2)
    (h : ¬ shouldAppend pos trail) : updateTrail pos trail = trail := by
  unfold updateTrail
  rw [if_neg h]

theorem updateTrail_last (pos : Vec2) (trail : List Vec2) (h : shouldAppend pos trail) :
    (updateTrail pos trail).getLast? = some pos := by
  rw [updateTrail_append pos trail h]
  by_cases hc : 150 < trail.length + 1
  · rw [if_pos hc]
    cases trail with
    | nil => simp at hc
    | cons a t => simp [List.getLast?_concat]
  · rw [if_neg hc]
    exact List.getLast?_concat _

theorem updateTrail_length_le (pos : Vec2) (trail : List Vec2)
    (h : trail.length ≤ 150) : (updateTrail pos trail).length ≤ 150 := by
  by_cases hs : shouldAppend pos trail
  · rw [updateTrail_append pos trail hs]
    by_cases hc : 150 < trail.length + 1
    · rw [if_pos hc]
      simp
      omega
    · rw [if_neg hc]
      simp
      omega
  · rw [updateTrail_not_append pos trail hs]
    exact h

/-- Statement of the trail-bookkeeping property for body `i` of one stepper
call: when paused, no trail mutation; when not paused, the new trail is
exactly the source's update at the body's new position — a point is appended
precisely when the trail is empty or the new position is farther than 0.05
from the last recorded point, the appended point is the current position,
the oldest point is dropped (FIFO) when the 150-point cap is exceeded, and a
trail of length at most 150 stays at most 150. -/
def TrailClaim (sim : SimState) (dt : ℝ) (i : ℕ) : Prop :=
  (sim.paused = true →
    ((integrate sim dt).bodies.getD i default).trail = (sim.bodies.getD i default).trail) ∧
  (sim.paused = false →
    ((integrate sim dt).bodies.getD i default).trail =
      updateTrail ((integrate sim dt).bodies.getD i default).pos
        (sim.bodies.getD i default).trail ∧
    (shouldAppend ((integrate sim dt).bodies.getD i default).pos
        (sim.bodies.getD i default).trail →
      ((integrate sim dt).bodies.getD i default).trail =
        (if 150 < (sim.bodies.getD i default).trail.length + 1
         then ((sim.bodies.getD i default).trail ++
            [((integrate sim dt).bodies.getD i default).pos]).tail
         else (sim.bodies.getD i default).trail ++
            [((integrate sim dt).bodies.getD i default).pos]) ∧
      ((integrate sim dt).bodies.getD i default).trail.getLast? =
        some ((integrate sim dt).bodies.getD i default).pos) ∧
    (¬ shouldAppend ((integrate sim dt).bodies.getD i default).pos
        (sim.bodies.getD i default).trail →
      ((integrate sim dt).bodies.getD i default).trail =
        (sim.bodies.getD i default).trail) ∧
    ((sim.bodies.getD i default).trail.length ≤ 150 →
      ((integrate sim dt).bodies.getD i default).trail.length ≤ 150))

/-- C8: per body and stepper call, a trail point is appended exactly when the
trail is empty or the new position is farther than 0.05 from the last
recorded point; the trail never exceeds 150 points, the oldest is dropped
(FIFO) at the cap, the appended point is the current position, and when
paused no trail mutation occurs. -/
theorem trail_bookkeeping (sim : SimState) (dt : ℝ) (i : ℕ)
    (hi : i < sim.bodies.length) : TrailClaim sim dt i := by
  have hne : sim.bodies.length ≠ 0 := by omega
  have hb := integrate_bodies_of_ne sim dt hne
  have hw := writeBack_getD sim.paused (rk4Final sim.bodies dt) sim.bodies 0 i hi
  simp only [Nat.zero_add] at hw
  unfold TrailClaim
  rw [hb, hw]
  cases hp : sim.paused with
  | true => exact ⟨fun _ => rfl, fun hfalse => nomatch hfalse⟩
  | false =>
    constructor
    · intro htrue
      exact nomatch htrue
    · intro hfa
      refine ⟨rfl, ?_, ?_, ?_⟩
      · intro hsa
        exact ⟨updateTrail_append _ _ hsa, updateTrail_last _ _ hsa⟩
      · intro hsa
        exact updateTrail_not_append _ _ hsa
      · intro hl
        exact updateTrail_length_le _ _ hl

theorem trail_bookkeeping_witness :
    0 < (SimState.mk [⟨1, ⟨0, 0⟩, ⟨0, 0⟩, []⟩] 0.015 150 false).bodies.length ∧
    TrailClaim ⟨[⟨1, ⟨0, 0⟩, ⟨0, 0⟩, []⟩], 0.015, 150, false⟩ 0.015 0 :=
  ⟨by decide,
    trail_bookkeeping ⟨[⟨1, ⟨0, 0⟩, ⟨0, 0⟩, []⟩], 0.015, 150, false⟩ 0.015 0 (by decide)⟩

/-! Specification-side formulation of the RK4 step (spec section 4.3),
written with whole-vector addition and scalar multiplication, to be compared
with the code-side indexed maps. -/

/-- Vector addition on flattened states (specification side). -/
def addVec (a b : List ℝ) : List ℝ := List.zipWith (fun x y => x + y) a b

/-- Scalar multiple of a flattened state (specification side). -/
def smulVec (c : ℝ) (a : List ℝ) : List ℝ := a.map (fun x => c * x)

/-- Specification step 2: k1 = derivatives(s0). -/
noncomputable def k1Spec (bodies : List Body) : List ℝ :=
  getDerivatives bodies (flatten bodies)

/-- Specification step 3: s1 = s0 + (dt/2)·k1. -/
noncomputable def s1Spec (bodies : List Body) (dt : ℝ) : List ℝ :=
  addVec (flatten bodies) (smulVec (dt / 2) (k1Spec bodies))

/-- Specification step 3: k2 = derivatives(s1). -/
noncomputable def k2Spec (bodies : List Body) (dt : ℝ) : List ℝ :=
  getDerivatives bodies (s1Spec bodies dt)

/-- Specification step 4: s2 = s0 + (dt/2)·k2. -/
noncomputable def s2Spec (bodies : List Body) (dt : ℝ) : List ℝ :=
  addVec (flatten bodies) (smulVec (dt / 2) (k2Spec bodies dt))

/-- Specification step 4: k3 = derivatives(s2). -/
noncomputable def k3Spec (bodies : List Body) (dt : ℝ) : List ℝ :=
  getDerivatives bodies (s2Spec bodies dt)

/-- Specification step 5: s3 = s0 + dt·k3. -/
noncomputable def s3Spec (bodies : List Body) (dt : ℝ) : List ℝ :=
  addVec (flatten bodies) (smulVec dt (k3Spec bodies dt))

/-- Specification step 5: k4 = derivatives(s3). -/
noncomputable def k4Spec (bodies : List Body) (dt : ℝ) : List ℝ :=
  getDerivatives bodies (s3Spec bodies dt)

/-- Specification step 6: sFinal = s0 + (dt/6)·(k1 + 2·k2 + 2·k3 + k4). -/
noncomputable def rk4SpecFinal (bodies : List Body) (dt : ℝ) : List ℝ :=
  addVec (flatten bodies)
    (smulVec (dt / 6)
      (addVec (k1Spec bodies)
        (addVec (smulVec 2 (k2Spec bodies dt))
          (addVec (smulVec 2 (k3Spec bodies dt)) (k4Spec bodies dt)))))

theorem length_smulVec (c : ℝ) (a : List ℝ) : (smulVec c a).length = a.length := by
  simp [smulVec]

theorem length_addVec (a b : List ℝ) :
    (addVec a b).length = min a.length b.length := by
  simp [addVec]

theorem lget_addVec (a b : List ℝ) (n : ℕ) (ha : n < a.length) (hb : n < b.length) :
    lget (addVec a b) n = lget a n + lget b n := by
  rw [lget_of_lt _ _ (by rw [length_addVec]; omega),
    lget_of_lt _ _ ha, lget_of_lt _ _ hb]
  simp [addVec]

theorem lget_smulVec (c : ℝ) (a : List ℝ) (n : ℕ) (h : n < a.length) :
    lget (smulVec c a) n = c * lget a n := by
  rw [lget_of_lt _ _ (by rw [length_smulVec]; omega), lget_of_lt _ _ h]
  simp [smulVec]

theorem stepState_eq_addVec (s k : List ℝ) (c : ℝ) (hk : k.length = s.length) :
    stepState s k c = addVec s (smulVec c k) := by
  apply List.ext_getElem
  · simp [length_stepState, length_addVec, length_smulVec, hk]
  · intro n h1 h2
    have hn : n < s.length := by
      rw [length_stepState] at h1
      exact h1
    rw [← lget_of_lt _ _ h1, ← lget_of_lt _ _ h2, lget_stepState _ _ _ _ hn,
      lget_addVec _ _ _ hn (by rw [length_smulVec, hk]; exact hn),
      lget_smulVec _ _ _ (by rw [hk]; exact hn)]
    ring

theorem s1Spec_eq (bodies : List Body) (dt : ℝ) : s1Spec bodies dt = SK2 bodies dt := by
  rw [s1Spec, SK2, stepState_eq_addVec _ _ _ (by rw [length_K1, length_flatten]),
    show dt * 0.5 = dt / 2 from by ring]
  rfl

theorem k2Spec_eq (bodies : List Body) (dt : ℝ) : k2Spec bodies dt = K2 bodies dt := by
  rw [k2Spec, K2, s1Spec_eq]

theorem s2Spec_eq (bodies : List Body) (dt : ℝ) : s2Spec bodies dt = SK3 bodies dt := by
  rw [s2Spec, SK3, stepState_eq_addVec _ _ _ (by rw [length_K2, length_flatten]),
    show dt * 0.5 = dt / 2 from by ring, k2Spec_eq]

theorem k3Spec_eq (bodies : List Body) (dt : ℝ) : k3Spec bodies dt = K3 bodies dt := by
  rw [k3Spec, K3, s2Spec_eq]

theorem s3Spec_eq (bodies : List Body) (dt : ℝ) : s3Spec bodies dt = SK4 bodies dt := by
  rw [s3Spec, SK4, stepState_eq_addVec _ _ _ (by rw [length_K3, length_flatten]), k3Spec_eq]

theorem k4Spec_eq (bodies : List Body) (dt : ℝ) : k4Spec bodies dt = K4 bodies dt := by
  rw [k4Spec, K4, s3Spec_eq]

theorem rk4_code_eq_spec (bodies : List Body) (dt : ℝ) :
    rk4Final bodies dt = rk4SpecFinal bodies dt := by
  rw [rk4SpecFinal, k2Spec_eq, k3Spec_eq, k4Spec_eq,
    show k1Spec bodies = K1 bodies from rfl]
  apply List.ext_getElem
  · simp [length_rk4Final, length_addVec, length_smulVec, length_K1, length_K2,
      length_K3, length_K4, length_flatten]
  · intro n h1 h2
    have hn : n < 4 * bodies.length := by
      rw [length_rk4Final] at h1
      exact h1
    have hs : n < (flatten bodies).length := by rw [length_flatten]; exact hn
    have h1n : n < (K1 bodies).length := by rw [length_K1]; exact hn
    have h2n : n < (K2 bodies dt).length := by rw [length_K2]; exact hn
    have h3n : n < (K3 bodies dt).length := by rw [length_K3]; exact hn
    have h4n : n < (K4 bodies dt).length := by rw [length_K4]; exact hn
    rw [← lget_of_lt _ _ h1, ← lget_of_lt _ _ h2, lget_rk4Final _ _ _ hn,
      lget_addVec _ _ _ hs (by
        rw [length_smulVec, length_addVec, length_addVec, length_addVec,
          length_smulVec, length_smulVec, length_K1, length_K2, length_K3, length_K4]
        omega),
      lget_smulVec _ _ _ (by
        rw [length_addVec, length_addVec, length_addVec,
          length_smulVec, length_smulVec, length_K1, length_K2, length_K3, length_K4]
        omega),
      lget_addVec _ _ _ h1n (by
        rw [length_addVec, length_addVec, length_smulVec, length_smulVec,
          length_K2, length_K3, length_K4]
        omega),
      lget_addVec _ _ _ (by rw [length_smulVec, length_K2]; exact hn) (by
        rw [length_addVec, length_smulVec, length_K3, length_K4]
        omega),
      lget_addVec _ _ _ (by rw [length_smulVec, length_K3]; exact hn) h4n,
      lget_smulVec _ _ _ h2n, lget_smulVec _ _ _ h3n]
    ring

/-- Statement of the RK4-combination claim for body `i` of one stepper call:
after `integrate`, the body's position and velocity equal components
4i .. 4i+3 of s0 + (dt/6)·(k1 + 2·k2 + 2·k3 + k4), the k's being the four
specification-side derivative evaluations. -/
def RK4Claim (sim : SimState) (dt : ℝ) (i : ℕ) : Prop :=
  ((integrate sim dt).bodies.getD i default).pos.x =
    lget (rk4SpecFinal sim.bodies dt) (4 * i) ∧
  ((integrate sim dt).bodies.getD i default).pos.y =
    lget (rk4SpecFinal sim.bodies dt) (4 * i + 1) ∧
  ((integrate sim dt).bodies.getD i default).vel.x =
    lget (rk4SpecFinal sim.bodies dt) (4 * i + 2) ∧
  ((integrate sim dt).bodies.getD i default).vel.y =
    lget (rk4SpecFinal sim.bodies dt) (4 * i + 3)

/-- C1: for every non-empty body list and every dt, one `integrate` call
updates every body's position and velocity to the corresponding components
of the classical RK4 combination s0 + (dt/6)·(k1 + 2·k2 + 2·k3 + k4). -/
theorem integrate_is_rk4 (sim : SimState) (dt : ℝ) (hne : sim.bodies ≠ []) (i : ℕ)
    (hi : i < sim.bodies.length) : RK4Claim sim dt i := by
  have hlen0 : sim.bodies.length ≠ 0 := by
    intro h
    exact hne (List.length_eq_zero.mp h)
  have hb := integrate_bodies_of_ne sim dt hlen0
  have hw := writeBack_getD sim.paused (rk4Final sim.bodies dt) sim.bodies 0 i hi
  simp only [Nat.zero_add] at hw
  unfold RK4Claim
  rw [hb, hw, rk4_code_eq_spec]
  exact ⟨rfl, rfl, rfl, rfl⟩

theorem integrate_is_rk4_witness :
    ((SimState.mk [⟨1, ⟨1, 0⟩, ⟨0, 1⟩, []⟩] 0.015 150 false).bodies ≠ []) ∧
    (0 < (SimState.mk [⟨1, ⟨1, 0⟩, ⟨0, 1⟩, []⟩] 0.015 150 false).bodies.length) ∧
    RK4Claim ⟨[⟨1, ⟨1, 0⟩, ⟨0, 1⟩, []⟩], 0.015, 150, false⟩ 0.015 0 :=
  ⟨by simp, by decide,
    integrate_is_rk4 ⟨[⟨1, ⟨1, 0⟩, ⟨0, 1⟩, []⟩], 0.015, 150, false⟩ 0.015
      (by simp) 0 (by decide)⟩

theorem accel_single (b : Body) (state : List ℝ) : accel [b] state 0 = (0, 0) := by
  simp [accel, show List.range 1 = [0] from rfl]

theorem getDerivatives_single (b : Body) (state : List ℝ) (h : state.length = 4) :
    getDerivatives [b] state = [lget state 2, lget state 3, 0, 0] := by
  unfold getDerivatives
  rw [h, show List.range 4 = [0, 1, 2, 3] from rfl]
  simp [derivEntry, accel_single]

/-- Statement of the single-body claim: the derivative evaluator gives the
body zero acceleration, and one stepper call moves it in a straight line
(new position = position + dt · velocity, velocity unchanged). -/
def SingleBodyClaim (sim : SimState) (b : Body) (dt : ℝ) : Prop :=
  getDerivatives [b] (flatten [b]) = [b.vel.x, b.vel.y, 0, 0] ∧
  ((integrate sim dt).bodies.getD 0 default).pos.x = b.pos.x + dt * b.vel.x ∧
  ((integrate sim dt).bodies.getD 0 default).pos.y = b.pos.y + dt * b.vel.y ∧
  ((integrate sim dt).bodies.getD 0 default).vel.x = b.vel.x ∧
  ((integrate sim dt).bodies.getD 0 default).vel.y = b.vel.y

/-- C5: for every single-body list and every dt, the derivative evaluator
assigns zero acceleration (the j ≠ i sum is empty) and one stepper call
moves the body in a straight line under its own velocity. -/
theorem single_body_straight_line (sim : SimState) (b : Body) (dt : ℝ)
    (h : sim.bodies = [b]) : SingleBodyClaim sim b dt := by
  have hK1 : K1 [b] = [b.vel.x, b.vel.y, 0, 0] := by
    rw [K1, getDerivatives_single b (flatten [b]) rfl]
    rfl
  have hSK2 : SK2 [b] dt = [b.pos.x + b.vel.x * (dt * 0.5),
      b.pos.y + b.vel.y * (dt * 0.5), b.vel.x, b.vel.y] := by
    unfold SK2 stepState
    rw [show (flatten [b]).length = 4 from rfl, show List.range 4 = [0, 1, 2, 3] from rfl, hK1]
    simp [lget, flatten]
  have hK2 : K2 [b] dt = [b.vel.x, b.vel.y, 0, 0] := by
    unfold K2
    rw [hSK2, getDerivatives_single b [b.pos.x + b.vel.x * (dt * 0.5), b.pos.y + b.vel.y * (dt * 0.5), b.vel.x, b.vel.y] rfl]
    simp [lget]
  have hSK3 : SK3 [b] dt = [b.pos.x + b.vel.x * (dt * 0.5),
      b.pos.y + b.vel.y * (dt * 0.5), b.vel.x, b.vel.y] := by
    unfold SK3 stepState
    rw [show (flatten [b]).length = 4 from rfl, show List.range 4 = [0, 1, 2, 3] from rfl, hK2]
    simp [lget, flatten]
  have hK3 : K3 [b] dt = [b.vel.x, b.vel.y, 0, 0] := by
    unfold K3
    rw [hSK3, getDerivatives_single b [b.pos.x + b.vel.x * (dt * 0.5), b.pos.y + b.vel.y * (dt * 0.5), b.vel.x, b.vel.y] rfl]
    simp [lget]
  have hSK4 : SK4 [b] dt = [b.pos.x + b.vel.x * dt,
      b.pos.y + b.vel.y * dt, b.vel.x, b.vel.y] := by
    unfold SK4 stepState
    rw [show (flatten [b]).length = 4 from rfl, show List.range 4 = [0, 1, 2, 3] from rfl, hK3]
    simp [lget, flatten]
  have hK4 : K4 [b] dt = [b.vel.x, b.vel.y, 0, 0] := by
    unfold K4
    rw [hSK4, getDerivatives_single b [b.pos.x + b.vel.x * dt, b.pos.y + b.vel.y * dt, b.vel.x, b.vel.y] rfl]
    simp [lget]
  have hd : getDerivatives [b] (flatten [b]) = [b.vel.x, b.vel.y, 0, 0] := by
    rw [getDerivatives_single b (flatten [b]) rfl]
    rfl
  have hlen0 : sim.bodies.length ≠ 0 := by rw [h]; simp
  have hb := integrate_bodies_of_ne sim dt hlen0
  have hw := writeBack_getD sim.paused (rk4Final sim.bodies dt) sim.bodies 0 0
    (by rw [h]; simp)
  simp only [Nat.zero_add] at hw
  have e0 : lget (rk4Final [b] dt) (4 * 0) = b.pos.x + dt * b.vel.x := by
    rw [lget_rk4Final [b] dt (4 * 0) (by norm_num), hK1, hK2, hK3, hK4]
    simp [lget, flatten]
    ring
  have e1 : lget (rk4Final [b] dt) (4 * 0 + 1) = b.pos.y + dt * b.vel.y := by
    rw [lget_rk4Final [b] dt (4 * 0 + 1) (by norm_num), hK1, hK2, hK3, hK4]
    simp [lget, flatten]
    ring
  have e2 : lget (rk4Final [b] dt) (4 * 0 + 2) = b.vel.x := by
    rw [lget_rk4Final [b] dt (4 * 0 + 2) (by norm_num), hK1, hK2, hK3, hK4]
    simp [lget, flatten]
  have e3 : lget (rk4Final [b] dt) (4 * 0 + 3) = b.vel.y := by
    rw [lget_rk4Final [b] dt (4 * 0 + 3) (by norm_num), hK1, hK2, hK3, hK4]
    simp [lget, flatten]
  refine ⟨hd, ?_, ?_, ?_, ?_⟩ <;>
    · rw [hb, hw, h]
      first
      | exact e0
      | exact e1
      | exact e2
      | exact e3

theorem single_body_straight_line_witness :
    ((SimState.mk [⟨1, ⟨2, 3⟩, ⟨4, 5⟩, []⟩] 0.015 150 false).bodies =
      [(⟨1, ⟨2, 3⟩, ⟨4, 5⟩, []⟩ : Body)]) ∧
    SingleBodyClaim ⟨[⟨1, ⟨2, 3⟩, ⟨4, 5⟩, []⟩], 0.015, 150, false⟩ ⟨1, ⟨2, 3⟩, ⟨4, 5⟩, []⟩ 0.015 :=
  ⟨rfl,
    single_body_straight_line ⟨[⟨1, ⟨2, 3⟩, ⟨4, 5⟩, []⟩], 0.015, 150, false⟩
      ⟨1, ⟨2, 3⟩, ⟨4, 5⟩, []⟩ 0.015 rfl⟩

/-- Projection of a body to mass, position and velocity: exactly the data
the dynamics read and write (trail is presentation state). -/
def core (b : Body) : ℝ × Vec2 × Vec2 := (b.mass, b.pos, b.vel)

theorem length_congr_of_map_core (b1 b2 : List Body)
    (h : b1.map core = b2.map core) : b1.length = b2.length := by
  have := congrArg List.length h
  simpa using this

theorem flatten_congr : ∀ (b1 b2 : List Body), b1.map core = b2.map core →
    flatten b1 = flatten b2
  | [], [], _ => rfl
  | [], b :: t, h => by simp [core] at h
  | b :: t, [], h => by simp [core] at h
  | a :: t1, a' :: t2, h => by
    simp only [List.map_cons, List.cons.injEq, core, Prod.mk.injEq] at h
    obtain ⟨⟨hm, hp, hv⟩, ht⟩ := h
    simp only [flatten, hp, hv]
    rw [flatten_congr t1 t2 ht]

theorem mass_getD_congr : ∀ (b1 b2 : List Body), b1.map core = b2.map core →
    ∀ j, (b1.getD j default).mass = (b2.getD j default).mass
  | [], [], _, _ => rfl
  | [], b :: t, h, _ => by simp [core] at h
  | b :: t, [], h, _ => by simp [core] at h
  | a :: t1, a' :: t2, h, j => by
    simp only [List.map_cons, List.cons.injEq, core, Prod.mk.injEq] at h
    obtain ⟨⟨hm, hp, hv⟩, ht⟩ := h
    cases j with
    | zero => simpa using hm
    | succ j => simpa using mass_getD_congr t1 t2 ht j

theorem pairAcc_congr (b1 b2 : List Body)
    (hm : ∀ j, (b1.getD j default).mass = (b2.getD j default).mass)
    (state : List ℝ) (i j : ℕ) :
    pairAcc b1 state i j = pairAcc b2 state i j := by
  unfold pairAcc
  rw [hm j]

theorem accel_congr (b1 b2 : List Body) (hlen : b1.length = b2.length)
    (hm : ∀ j, (b1.getD j default).mass = (b2.getD j default).mass)
    (state : List ℝ) (i : ℕ) :
    accel b1 state i = accel b2 state i := by
  unfold accel
  rw [hlen]
  congr 1
  funext acc j
  by_cases hij : i = j
  · simp [hij]
  · simp [hij, pairAcc_congr b1 b2 hm state i j]

theorem getDerivatives_congr (b1 b2 : List Body) (h : b1.map core = b2.map core)
    (state : List ℝ) : getDerivatives b1 state = getDerivatives b2 state := by
  have hlen := length_congr_of_map_core b1 b2 h
  have hm := mass_getD_congr b1 b2 h
  unfold getDerivatives
  have hde : derivEntry b1 state = derivEntry b2 state := by
    funext idx
    unfold derivEntry
    rw [hlen, accel_congr b1 b2 hlen hm state (idx / 4)]
  rw [hde]

theorem rk4Final_congr (b1 b2 : List Body) (dt : ℝ)
    (h : b1.map core = b2.map core) : rk4Final b1 dt = rk4Final b2 dt := by
  have hf := flatten_congr b1 b2 h
  have hg := getDerivatives_congr b1 b2 h
  have hK1 : K1 b1 = K1 b2 := by rw [K1, K1, hf, hg]
  have hSK2 : SK2 b1 dt = SK2 b2 dt := by rw [SK2, SK2, hf, hK1]
  have hK2 : K2 b1 dt = K2 b2 dt := by rw [K2, K2, hSK2, hg]
  have hSK3 : SK3 b1 dt = SK3 b2 dt := by rw [SK3, SK3, hf, hK2]
  have hK3 : K3 b1 dt = K3 b2 dt := by rw [K3, K3, hSK3, hg]
  have hSK4 : SK4 b1 dt = SK4 b2 dt := by rw [SK4, SK4, hf, hK3]
  have hK4 : K4 b1 dt = K4 b2 dt := by rw [K4, K4, hSK4, hg]
  rw [rk4Final, rk4Final, hf, hK1, hK2, hK3, hK4]

theorem writeBack_core_congr (s : List ℝ) :
    ∀ (b1 b2 : List Body) (p1 p2 : Bool) (i : ℕ), b1.map core = b2.map core →
      (writeBack p1 s i b1).map core = (writeBack p2 s i b2).map core
  | [], [], _, _, _, _ => rfl
  | [], b :: t, _, _, _, h => by simp [core] at h
  | b :: t, [], _, _, _, h => by simp [core] at h
  | a :: t1, a' :: t2, p1, p2, i, h => by
    simp only [List.map_cons, List.cons.injEq, core, Prod.mk.injEq] at h
    obtain ⟨⟨hm, hp, hv⟩, ht⟩ := h
    simp only [writeBack, List.map_cons, core, List.cons.injEq, Prod.mk.injEq]
    exact ⟨⟨hm, trivial⟩, writeBack_core_congr s t1 t2 p1 p2 (i + 1) ht⟩

theorem integrate_core_congr (sim1 sim2 : SimState) (dt : ℝ)
    (h : sim1.bodies.map core = sim2.bodies.map core) :
    (integrate sim1 dt).bodies.map core = (integrate sim2 dt).bodies.map core := by
  have hlen := length_congr_of_map_core _ _ h
  by_cases h0 : sim1.bodies.length = 0
  · have e1 : integrate sim1 dt = sim1 := by
      unfold integrate
      rw [if_pos h0]
    have e2 : integrate sim2 dt = sim2 := by
      unfold integrate
      rw [if_pos (by omega)]
    rw [e1, e2]
    exact h
  · rw [integrate_bodies_of_ne _ _ h0, integrate_bodies_of_ne _ _ (by omega),
      rk4Final_congr sim1.bodies sim2.bodies dt h]
    exact writeBack_core_congr _ _ _ _ _ 0 h

/-- C9: the integrator is deterministic: two runs from identical initial
masses, positions and velocities produce identical trajectories — after any
number of stepper calls the masses, positions and velocities coincide
(regardless of trail contents or pause flags, which the dynamics ignore). -/
theorem integrator_deterministic (sim1 sim2 : SimState) (dt : ℝ)
    (h : sim1.bodies.map core = sim2.bodies.map core) (n : ℕ) :
    (stepN sim1 dt n).bodies.map core = (stepN sim2 dt n).bodies.map core := by
  induction n with
  | zero => exact h
  | succ n ih =>
    simp only [stepN]
    exact integrate_core_congr _ _ dt ih

theorem integrator_deterministic_witness :
    ((SimState.mk [⟨1, ⟨1, 0⟩, ⟨0, 1⟩, []⟩] 0.015 150 false).bodies.map core =
      (SimState.mk [⟨1, ⟨1, 0⟩, ⟨0, 1⟩, [⟨9, 9⟩]⟩] 0.02 100 true).bodies.map core) ∧
    (stepN ⟨[⟨1, ⟨1, 0⟩, ⟨0, 1⟩, []⟩], 0.015, 150, false⟩ 0.015 3).bodies.map core =
      (stepN ⟨[⟨1, ⟨1, 0⟩, ⟨0, 1⟩, [⟨9, 9⟩]⟩], 0.02, 100, true⟩ 0.015 3).bodies.map core :=
  ⟨rfl,
    integrator_deterministic ⟨[⟨1, ⟨1, 0⟩, ⟨0, 1⟩, []⟩], 0.015, 150, false⟩
      ⟨[⟨1, ⟨1, 0⟩, ⟨0, 1⟩, [⟨9, 9⟩]⟩], 0.02, 100, true⟩ 0.015 rfl 3⟩

theorem map_sum_eq_range_sum (f : Body → ℝ) (bs : List Body) :
    (bs.map f).sum = ∑ i ∈ Finset.range bs.length, f (bs.getD i default) := by
  induction bs with
  | nil => simp
  | cons b t ih =>
    rw [List.map_cons, List.sum_cons, ih, List.length_cons, Finset.sum_range_succ']
    simp [List.getD_cons_succ]
    ring

theorem double_sum_antisym (n : ℕ) (F : ℕ → ℕ → ℝ) (h : ∀ i j, F j i = -F i j) :
    ∑ i ∈ Finset.range n, ∑ j ∈ Finset.range n, F i j = 0 := by
  have h1 : ∑ i ∈ Finset.range n, ∑ j ∈ Finset.range n, F i j
      = ∑ j ∈ Finset.range n, ∑ i ∈ Finset.range n, F i j := Finset.sum_comm
  have h2 : ∑ j ∈ Finset.range n, ∑ i ∈ Finset.range n, F i j
      = ∑ j ∈ Finset.range n, ∑ i ∈ Finset.range n, -F j i := by
    refine Finset.sum_congr rfl fun j _ => Finset.sum_congr rfl fun i _ => ?_
    exact h j i
  have h3 : ∑ j ∈ Finset.range n, ∑ i ∈ Finset.range n, -F j i
      = -∑ j ∈ Finset.range n, ∑ i ∈ Finset.range n, F j i := by
    simp
  have h4 : ∑ j ∈ Finset.range n, ∑ i ∈ Finset.range n, F j i
      = ∑ i ∈ Finset.range n, ∑ j ∈ Finset.range n, F i j := rfl
  linarith [h1.trans (h2.trans (h3.trans (congrArg Neg.neg h4)))]

theorem pair_antisym_x (bodies : List Body) (state : List ℝ) (i j : ℕ) :
    (bodies.getD j default).mass * (pairAcc bodies state j i).1 =
      -((bodies.getD i default).mass * (pairAcc bodies state i j).1) := by
  have hD : Real.rpow ((lget state (4 * i) - lget state (4 * j)) *
        (lget state (4 * i) - lget state (4 * j)) +
        (lget state (4 * i + 1) - lget state (4 * j + 1)) *
          (lget state (4 * i + 1) - lget state (4 * j + 1)) + SOFTENING) 1.5 =
      Real.rpow ((lget state (4 * j) - lget state (4 * i)) *
        (lget state (4 * j) - lget state (4 * i)) +
        (lget state (4 * j + 1) - lget state (4 * i + 1)) *
          (lget state (4 * j + 1) - lget state (4 * i + 1)) + SOFTENING) 1.5 := by
    congr 1
    ring
  simp only [pairAcc]
  rw [hD]
  ring

theorem pair_antisym_y (bodies : List Body) (state : List ℝ) (i j : ℕ) :
    (bodies.getD j default).mass * (pairAcc bodies state j i).2 =
      -((bodies.getD i default).mass * (pairAcc bodies state i j).2) := by
  have hD : Real.rpow ((lget state (4 * i) - lget state (4 * j)) *
        (lget state (4 * i) - lget state (4 * j)) +
        (lget state (4 * i + 1) - lget state (4 * j + 1)) *
          (lget state (4 * i + 1) - lget state (4 * j + 1)) + SOFTENING) 1.5 =
      Real.rpow ((lget state (4 * j) - lget state (4 * i)) *
        (lget state (4 * j) - lget state (4 * i)) +
        (lget state (4 * j + 1) - lget state (4 * i + 1)) *
          (lget state (4 * j + 1) - lget state (4 * i + 1)) + SOFTENING) 1.5 := by
    congr 1
    ring
  simp only [pairAcc]
  rw [hD]
  ring

theorem mass_accel_sum_zero_x (bodies : List Body) (state : List ℝ) :
    ∑ i ∈ Finset.range bodies.length,
      (bodies.getD i default).mass * (accel bodies state i).1 = 0 := by
  have step1 : ∀ i ∈ Finset.range bodies.length,
      (bodies.getD i default).mass * (accel bodies state i).1 =
        ∑ j ∈ Finset.range bodies.length,
          (if j ≠ i then (bodies.getD i default).mass * (pairAcc bodies state i j).1
           else 0) := by
    intro i _
    rw [accel_eq_sum]
    show (bodies.getD i default).mass *
        (∑ j ∈ (Finset.range bodies.length).filter (fun j => j ≠ i),
          (pairAcc bodies state i j).1) = _
    rw [Finset.mul_sum, Finset.sum_filter]
  rw [Finset.sum_congr rfl step1]
  refine double_sum_antisym bodies.length _ fun i j => ?_
  by_cases hij : i = j
  · subst hij
    simp
  · rw [if_pos (Ne.symm hij), if_pos hij]
    exact pair_antisym_x bodies state i j

theorem mass_accel_sum_zero_y (bodies : List Body) (state : List ℝ) :
    ∑ i ∈ Finset.range bodies.length,
      (bodies.getD i default).mass * (accel bodies state i).2 = 0 := by
  have step1 : ∀ i ∈ Finset.range bodies.length,
      (bodies.getD i default).mass * (accel bodies state i).2 =
        ∑ j ∈ Finset.range bodies.length,
          (if j ≠ i then (bodies.getD i default).mass * (pairAcc bodies state i j).2
           else 0) := by
    intro i _
    rw [accel_eq_sum]
    show (bodies.getD i default).mass *
        (∑ j ∈ (Finset.range bodies.length).filter (fun j => j ≠ i),
          (pairAcc bodies state i j).2) = _
    rw [Finset.mul_sum, Finset.sum_filter]
  rw [Finset.sum_congr rfl step1]
  refine double_sum_antisym bodies.length _ fun i j => ?_
  by_cases hij : i = j
  · subst hij
    simp
  · rw [if_pos (Ne.symm hij), if_pos hij]
    exact pair_antisym_y bodies state i j

theorem sum_mass_velx_after (bodies : List Body) (p : Bool) (dt : ℝ) :
    ((writeBack p (rk4Final bodies dt) 0 bodies).map (fun b => b.mass * b.vel.x)).sum =
      (bodies.map (fun b => b.mass * b.vel.x)).sum := by
  have hterm : ∀ k ∈ Finset.range bodies.length,
      ((writeBack p (rk4Final bodies dt) 0 bodies).getD k default).mass *
        ((writeBack p (rk4Final bodies dt) 0 bodies).getD k default).vel.x =
      (bodies.getD k default).mass * (bodies.getD k default).vel.x +
        dt / 6 * ((bodies.getD k default).mass * (accel bodies (flatten bodies) k).1) +
        dt / 3 * ((bodies.getD k default).mass * (accel bodies (SK2 bodies dt) k).1) +
        dt / 3 * ((bodies.getD k default).mass * (accel bodies (SK3 bodies dt) k).1) +
        dt / 6 * ((bodies.getD k default).mass * (accel bodies (SK4 bodies dt) k).1) := by
    intro k hk
    rw [Finset.mem_range] at hk
    have hw := writeBack_getD p (rk4Final bodies dt) bodies 0 k hk
    simp only [Nat.zero_add] at hw
    rw [hw]
    show (bodies.getD k default).mass * lget (rk4Final bodies dt) (4 * k + 2) = _
    rw [lget_rk4Final bodies dt (4 * k + 2) (by omega)]
    have e1 : lget (K1 bodies) (4 * k + 2) = (accel bodies (flatten bodies) k).1 := by
      rw [K1]
      exact lget_getDerivatives_ax bodies _ k hk (by rw [length_flatten]; omega)
    have e2 : lget (K2 bodies dt) (4 * k + 2) = (accel bodies (SK2 bodies dt) k).1 := by
      rw [K2]
      exact lget_getDerivatives_ax bodies _ k hk (by rw [length_SK2]; omega)
    have e3 : lget (K3 bodies dt) (4 * k + 2) = (accel bodies (SK3 bodies dt) k).1 := by
      rw [K3]
      exact lget_getDerivatives_ax bodies _ k hk (by rw [length_SK3]; omega)
    have e4 : lget (K4 bodies dt) (4 * k + 2) = (accel bodies (SK4 bodies dt) k).1 := by
      rw [K4]
      exact lget_getDerivatives_ax bodies _ k hk (by rw [length_SK4]; omega)
    have e0 : lget (flatten bodies) (4 * k + 2) = (bodies.getD k default).vel.x :=
      (flatten_lget bodies k hk).2.2.1
    rw [e0, e1, e2, e3, e4]
    ring
  rw [map_sum_eq_range_sum, map_sum_eq_range_sum, length_writeBack]
  refine (Finset.sum_congr rfl hterm).trans ?_
  have z1 : ∑ k ∈ Finset.range bodies.length,
      dt / 6 * ((bodies.getD k default).mass * (accel bodies (flatten bodies) k).1) = 0 := by
    rw [← Finset.mul_sum, mass_accel_sum_zero_x, mul_zero]
  have z2 : ∑ k ∈ Finset.range bodies.length,
      dt / 3 * ((bodies.getD k default).mass * (accel bodies (SK2 bodies dt) k).1) = 0 := by
    rw [← Finset.mul_sum, mass_accel_sum_zero_x, mul_zero]
  have z3 : ∑ k ∈ Finset.range bodies.length,
      dt / 3 * ((bodies.getD k default).mass * (accel bodies (SK3 bodies dt) k).1) = 0 := by
    rw [← Finset.mul_sum, mass_accel_sum_zero_x, mul_zero]
  have z4 : ∑ k ∈ Finset.range bodies.length,
      dt / 6 * ((bodies.getD k default).mass * (accel bodies (SK4 bodies dt) k).1) = 0 := by
    rw [← Finset.mul_sum, mass_accel_sum_zero_x, mul_zero]
  rw [Finset.sum_add_distrib, Finset.sum_add_distrib, Finset.sum_add_distrib,
    Finset.sum_add_distrib, z1, z2, z3, z4]
  simp

theorem sum_mass_vely_after (bodies : List Body) (p : Bool) (dt : ℝ) :
    ((writeBack p (rk4Final bodies dt) 0 bodies).map (fun b => b.mass * b.vel.y)).sum =
      (bodies.map (fun b => b.mass * b.vel.y)).sum := by
  have hterm : ∀ k ∈ Finset.range bodies.length,
      ((writeBack p (rk4Final bodies dt) 0 bodies).getD k default).mass *
        ((writeBack p (rk4Final bodies dt) 0 bodies).getD k default).vel.y =
      (bodies.getD k default).mass * (bodies.getD k default).vel.y +
        dt / 6 * ((bodies.getD k default).mass * (accel bodies (flatten bodies) k).2) +
        dt / 3 * ((bodies.getD k default).mass * (accel bodies (SK2 bodies dt) k).2) +
        dt / 3 * ((bodies.getD k default).mass * (accel bodies (SK3 bodies dt) k).2) +
        dt / 6 * ((bodies.getD k default).mass * (accel bodies (SK4 bodies dt) k).2) := by
    intro k hk
    rw [Finset.mem_range] at hk
    have hw := writeBack_getD p (rk4Final bodies dt) bodies 0 k hk
    simp only [Nat.zero_add] at hw
    rw [hw]
    show (bodies.getD k default).mass * lget (rk4Final bodies dt) (4 * k + 3) = _
    rw [lget_rk4Final bodies dt (4 * k + 3) (by omega)]
    have e1 : lget (K1 bodies) (4 * k + 3) = (accel bodies (flatten bodies) k).2 := by
      rw [K1]
      exact lget_getDerivatives_ay bodies _ k hk (by rw [length_flatten]; omega)
    have e2 : lget (K2 bodies dt) (4 * k + 3) = (accel bodies (SK2 bodies dt) k).2 := by
      rw [K2]
      exact lget_getDerivatives_ay bodies _ k hk (by rw [length_SK2]; omega)
    have e3 : lget (K3 bodies dt) (4 * k + 3) = (accel bodies (SK3 bodies dt) k).2 := by
      rw [K3]
      exact lget_getDerivatives_ay bodies _ k hk (by rw [length_SK3]; omega)
    have e4 : lget (K4 bodies dt) (4 * k + 3) = (accel bodies (SK4 bodies dt) k).2 := by
      rw [K4]
      exact lget_getDerivatives_ay bodies _ k hk (by rw [length_SK4]; omega)
    have e0 : lget (flatten bodies) (4 * k + 3) = (bodies.getD k default).vel.y :=
      (flatten_lget bodies k hk).2.2.2
    rw [e0, e1, e2, e3, e4]
    ring
  rw [map_sum_eq_range_sum, map_sum_eq_range_sum, length_writeBack]
  refine (Finset.sum_congr rfl hterm).trans ?_
  have z1 : ∑ k ∈ Finset.range bodies.length,
      dt / 6 * ((bodies.getD k default).mass * (accel bodies (flatten bodies) k).2) = 0 := by
    rw [← Finset.mul_sum, mass_accel_sum_zero_y, mul_zero]
  have z2 : ∑ k ∈ Finset.range bodies.length,
      dt / 3 * ((bodies.getD k default).mass * (accel bodies (SK2 bodies dt) k).2) = 0 := by
    rw [← Finset.mul_sum, mass_accel_sum_zero_y, mul_zero]
  have z3 : ∑ k ∈ Finset.range bodies.length,
      dt / 3 * ((bodies.getD k default).mass * (accel bodies (SK3 bodies dt) k).2) = 0 := by
    rw [← Finset.mul_sum, mass_accel_sum_zero_y, mul_zero]
  have z4 : ∑ k ∈ Finset.range bodies.length,
      dt / 6 * ((bodies.getD k default).mass * (accel bodies (SK4 bodies dt) k).2) = 0 := by
    rw [← Finset.mul_sum, mass_accel_sum_zero_y, mul_zero]
  rw [Finset.sum_add_distrib, Finset.sum_add_distrib, Finset.sum_add_distrib,
    Finset.sum_add_distrib, z1, z2, z3, z4]
  simp

/-- C10: in exact real arithmetic, one stepper call conserves total linear
momentum: the sum over bodies of mass · velocity is unchanged by integrate,
because the mass-weighted pairwise acceleration terms cancel at every RK4
stage and the update is a linear combination of the stages. -/
theorem momentum_conserved (sim : SimState) (dt : ℝ) :
    momentum (integrate sim dt).bodies = momentum sim.bodies := by
  by_cases h0 : sim.bodies.length = 0
  · have e : integrate sim dt = sim := by
      unfold integrate
      rw [if_pos h0]
    rw [e]
  · rw [integrate_bodies_of_ne _ _ h0]
    unfold momentum
    rw [sum_mass_velx_after, sum_mass_vely_after]

end ThreeBody
